import Mathlib

/-!
Verification of statistics trackers, the CSV writer and the Go-board
coordinate convertor from "The Art of Reinforcement Learning" companion code.

The Python sources are shallowly embedded:
* float values (rewards, times) are modelled as exact rationals `ℚ`;
* `NaN` results are modelled as `none` of an `Option` type;
* Python exceptions are modelled as `none` / `Except.error`;
* Python `int` is modelled as `ℤ` (or `ℕ` where the source value is a count).
-/

namespace ArtOfRL

/-! ### Trackers (chapter_13/trackers.py) -/

/-- State of `EpisodeTracker` after `reset()` has initialised the fields.
Mirrors the Python attributes (leading underscores dropped). -/
structure EpisodeTracker where
  num_steps_since_reset : ℕ
  episode_returns : List ℚ
  episode_steps : List ℕ
  episode_visited_rooms : List ℚ
  current_episode_rewards : List ℚ
  current_episode_step : ℕ
deriving Repr, DecidableEq

/-- The `info` argument of `step`: `some v` models an `info` dict containing
key `episode_visited_rooms` with value `v`; `none` models any other `info`
(including non-dict values), for which `_is_dict`/membership test fails. -/
abbrev TrackInfo := Option ℚ

/-- `EpisodeTracker.step(reward, done, info)`. -/
def EpisodeTracker.step (s : EpisodeTracker) (reward : ℚ) (done : Bool)
    (info : TrackInfo) : EpisodeTracker :=
  let rewards := s.current_episode_rewards ++ [reward]
  let n := s.num_steps_since_reset + 1
  let cstep := s.current_episode_step + 1
  if done then
    { num_steps_since_reset := n
      episode_returns := s.episode_returns ++ [rewards.sum]
      episode_steps := s.episode_steps ++ [cstep]
      episode_visited_rooms :=
        match info with
        | some v => s.episode_visited_rooms ++ [v]
        | none => s.episode_visited_rooms
      current_episode_rewards := []
      current_episode_step := 0 }
  else
    { s with
      num_steps_since_reset := n
      current_episode_rewards := rewards
      current_episode_step := cstep }

/-- `EpisodeTracker.reset()`. -/
def EpisodeTracker.reset : EpisodeTracker :=
  { num_steps_since_reset := 0
    episode_returns := []
    episode_steps := []
    episode_visited_rooms := []
    current_episode_rewards := []
    current_episode_step := 0 }

/-- The dictionary returned by `EpisodeTracker.get()`.  `none` in the two
mean fields models `np.nan` (for the visited-rooms field, the `NaN` that
`np.array([]).mean()` produces). -/
structure EpisodeStats where
  mean_episode_return : Option ℚ
  mean_episode_visited_rooms : Option ℚ
  num_episodes : ℕ
  current_episode_step : ℕ
  num_steps_since_reset : ℕ
deriving Repr, DecidableEq

/-- `EpisodeTracker.get()`. -/
def EpisodeTracker.get (s : EpisodeTracker) : EpisodeStats :=
  if s.episode_returns.length > 0 then
    { mean_episode_return :=
        some (s.episode_returns.sum / (s.episode_returns.length : ℚ))
      mean_episode_visited_rooms :=
        if s.episode_visited_rooms.length > 0 then
          some (s.episode_visited_rooms.sum / (s.episode_visited_rooms.length : ℚ))
        else none
      num_episodes := s.episode_returns.length
      current_episode_step := s.current_episode_step
      num_steps_since_reset := s.num_steps_since_reset }
  else
    { mean_episode_return :=
        if s.num_steps_since_reset > 0 then
          some s.current_episode_rewards.sum
        else none
      mean_episode_visited_rooms := some 0
      num_episodes := s.episode_returns.length
      current_episode_step := s.current_episode_step
      num_steps_since_reset := s.num_steps_since_reset }

/-- One timestep fed to a tracker: the arguments of a `step` call. -/
structure TStep where
  reward : ℚ
  done : Bool
  info : TrackInfo

/-- Running `reset()` followed by a sequence of `step()` calls. -/
def runSteps (steps : List TStep) : EpisodeTracker :=
  steps.foldl (fun s t => s.step t.reward t.done t.info) EpisodeTracker.reset

/-- Trace-level bookkeeping: accumulates the list of completed episodes
(each a list of its rewards, in order) and the rewards of the in-progress
episode. -/
def episodeAcc (acc : List (List ℚ) × List ℚ) (t : TStep) :
    List (List ℚ) × List ℚ :=
  let pending := acc.2 ++ [t.reward]
  if t.done then (acc.1 ++ [pending], []) else (acc.1, pending)

/-- The reward lists of the episodes completed along a trace. -/
def completedEpisodes (steps : List TStep) : List (List ℚ) :=
  (steps.foldl episodeAcc ([], [])).1

/-- The rewards of the episode still in progress at the end of a trace. -/
def pendingEpisode (steps : List TStep) : List ℚ :=
  (steps.foldl episodeAcc ([], [])).2

/-- Relation tying an `EpisodeTracker` state to the trace-level bookkeeping:
the tracker's lists are the per-episode sums/lengths of the accumulated
episodes, its in-progress fields mirror the pending episode, and the step
counter equals `n`. -/
def TrackerMatches (s : EpisodeTracker) (acc : List (List ℚ) × List ℚ)
    (n : ℕ) : Prop :=
  s.episode_returns = acc.1.map List.sum ∧
  s.episode_steps = acc.1.map List.length ∧
  s.current_episode_rewards = acc.2 ∧
  s.current_episode_step = acc.2.length ∧
  s.num_steps_since_reset = n

lemma trackerMatches_step {s : EpisodeTracker} {acc : List (List ℚ) × List ℚ}
    {n : ℕ} (h : TrackerMatches s acc n) (t : TStep) :
    TrackerMatches (s.step t.reward t.done t.info) (episodeAcc acc t) (n + 1) := by
  obtain ⟨h1, h2, h3, h4, h5⟩ := h
  unfold EpisodeTracker.step episodeAcc
  cases hd : t.done with
  | true =>
      refine ⟨?_, ?_, ?_, ?_, ?_⟩ <;>
        simp [TrackerMatches, h1, h2, h3, h4, h5]
  | false =>
      refine ⟨?_, ?_, ?_, ?_, ?_⟩ <;>
        simp [TrackerMatches, h1, h2, h3, h4, h5]

lemma trackerMatches_foldl (l : List TStep) :
    ∀ (s : EpisodeTracker) (acc : List (List ℚ) × List ℚ) (n : ℕ),
      TrackerMatches s acc n →
      TrackerMatches (l.foldl (fun s t => s.step t.reward t.done t.info) s)
        (l.foldl episodeAcc acc) (n + l.length) := by
  induction l with
  | nil => intro s acc n h; simpa using h
  | cons t l ih =>
      intro s acc n h
      have := ih _ _ _ (trackerMatches_step h t)
      simpa [Nat.add_comm, Nat.add_assoc, Nat.add_left_comm] using this

/-- The state reached by `reset()` followed by a trace of `step()` calls is
fully described by the trace-level bookkeeping. -/
lemma runSteps_spec (steps : List TStep) :
    TrackerMatches (runSteps steps) (steps.foldl episodeAcc ([], []))
      steps.length := by
  have h0 : TrackerMatches EpisodeTracker.reset ([], []) 0 := by
    refine ⟨rfl, rfl, rfl, rfl, rfl⟩
  simpa using trackerMatches_foldl steps EpisodeTracker.reset ([], []) 0 h0

/-- Along any trace with no completed episode, the pending episode is the
whole reward sequence. -/
lemma pending_of_no_completed (l : List TStep) :
    ∀ (cs : List (List ℚ)) (p : List ℚ),
      (l.foldl episodeAcc (cs, p)).1 = [] →
      cs = [] ∧ (l.foldl episodeAcc (cs, p)).2 = p ++ l.map TStep.reward := by
  induction l with
  | nil => intro cs p h; simpa using h
  | cons t l ih =>
      intro cs p h
      by_cases hd : t.done
      · exfalso
        have h' := h
        simp only [List.foldl_cons, episodeAcc, hd, if_true] at h'
        obtain ⟨hcs, -⟩ := ih _ _ h'
        exact absurd hcs (by simp)
      · have h' := h
        simp only [List.foldl_cons, episodeAcc, hd, if_false] at h'
        obtain ⟨hcs, hp⟩ := ih _ _ h'
        refine ⟨hcs, ?_⟩
        simp only [List.foldl_cons, episodeAcc, hd, if_false]
        simpa [List.append_assoc] using hp

/-- State of `StepRateTracker`: the step counter and the wall-clock time
recorded by `reset()` (`timeit.default_timer()` readings are modelled as
exact rationals). -/
structure StepRateTracker where
  num_steps_since_reset : ℕ
  start : ℚ
deriving Repr, DecidableEq

/-- `StepRateTracker.reset()`, given the current wall-clock reading. -/
def StepRateTracker.reset (now : ℚ) : StepRateTracker :=
  { num_steps_since_reset := 0, start := now }

/-- `StepRateTracker.step(reward, done, info)`: deletes its arguments and
increments the counter. -/
def StepRateTracker.step (s : StepRateTracker) (_reward : ℚ) (_done : Bool)
    (_info : TrackInfo) : StepRateTracker :=
  { s with num_steps_since_reset := s.num_steps_since_reset + 1 }

/-- The dictionary returned by `StepRateTracker.get()`; `step_rate = none`
models `np.nan`. -/
structure StepRateStats where
  step_rate : Option ℚ
  num_steps : ℕ
  duration : ℚ
deriving Repr, DecidableEq

/-- `StepRateTracker.get()`, given the current wall-clock reading. -/
def StepRateTracker.get (s : StepRateTracker) (now : ℚ) : StepRateStats :=
  let duration := now - s.start
  { step_rate :=
      if s.num_steps_since_reset > 0 then
        some ((s.num_steps_since_reset : ℚ) / duration)
      else none
    num_steps := s.num_steps_since_reset
    duration := duration }

/-- Running `reset()` at time `now0` followed by a sequence of `step()`
calls on a `StepRateTracker`. -/
def runRateSteps (now0 : ℚ) (steps : List TStep) : StepRateTracker :=
  steps.foldl (fun s t => s.step t.reward t.done t.info)
    (StepRateTracker.reset now0)

lemma runRateSteps_num (now0 : ℚ) (steps : List TStep) :
    (runRateSteps now0 steps).num_steps_since_reset = steps.length ∧
    (runRateSteps now0 steps).start = now0 := by
  unfold runRateSteps
  induction steps using List.list_reverse_induction with
  | base => exact ⟨rfl, rfl⟩
  | ind l t ih => simpa [StepRateTracker.step] using ih

lemma episodeAcc_length (l : List TStep) :
    ∀ (cs : List (List ℚ)) (p : List ℚ),
      ((l.foldl episodeAcc (cs, p)).1.map List.length).sum +
          (l.foldl episodeAcc (cs, p)).2.length =
        (cs.map List.length).sum + p.length + l.length := by
  induction l with
  | nil => intro cs p; simp
  | cons t l ih =>
      intro cs p
      by_cases hd : t.done
      · simp only [List.foldl_cons, episodeAcc, hd, if_true]
        rw [ih]
        simp
        omega
      · simp only [List.foldl_cons, episodeAcc, hd, if_false]
        rw [ih]
        simp
        omega

/-- Claim C1: for every state reachable by `reset()` followed by `step()`
calls, `get()['mean_episode_return']` is the arithmetic mean of the
completed-episode returns when at least one episode has completed; with no
completed episode but at least one step it is the sum of the in-progress
episode's rewards (= all rewards seen); with no steps at all it is `NaN`
(modelled as `none`). -/
theorem episodeTracker_mean_return_spec (steps : List TStep) :
    (completedEpisodes steps ≠ [] →
      (runSteps steps).get.mean_episode_return =
        some (((completedEpisodes steps).map List.sum).sum /
          ((completedEpisodes steps).length : ℚ))) ∧
    (completedEpisodes steps = [] → steps ≠ [] →
      (runSteps steps).get.mean_episode_return =
        some (steps.map TStep.reward).sum) ∧
    (steps = [] → (runSteps steps).get.mean_episode_return = none) := by
  obtain ⟨h1, h2, h3, h4, h5⟩ := runSteps_spec steps
  refine ⟨?_, ?_, ?_⟩
  · intro hne
    have hlen : 0 < (runSteps steps).episode_returns.length := by
      rw [h1]
      simpa [List.length_pos, completedEpisodes] using hne
    unfold EpisodeTracker.get
    rw [if_pos hlen]
    simp only [h1, completedEpisodes]
    simp
  · intro hc hne
    unfold completedEpisodes at hc
    have hr : (runSteps steps).episode_returns = [] := by
      rw [h1, hc]; rfl
    have hnum : 0 < (runSteps steps).num_steps_since_reset := by
      rw [h5]
      simpa [List.length_pos] using hne
    obtain ⟨-, hp⟩ := pending_of_no_completed steps [] [] hc
    unfold EpisodeTracker.get
    rw [if_neg (by simp [hr])]
    simp only [if_pos hnum, h3]
    rw [hp]
    simp
  · intro h
    subst h
    rfl

/-- Closed instance of `episodeTracker_mean_return_spec`: a trace with one
completed two-step episode reports mean return 1 + 3 = 4. -/
theorem episodeTracker_mean_return_spec_witness :
    (runSteps [⟨1, false, none⟩, ⟨3, true, none⟩]).get.mean_episode_return =
      some 4 := by
  have h := (episodeTracker_mean_return_spec
    [⟨1, false, none⟩, ⟨3, true, none⟩]).1
    (by simp [completedEpisodes, episodeAcc])
  rw [h]
  norm_num [completedEpisodes, episodeAcc]

/-- Claim C5: a `step(reward, done, info)` call zeroes
`current_episode_step` (and empties the in-progress reward list) exactly
when `done` holds; otherwise it increments it, leaving it nonzero. -/
theorem episodeTracker_current_step_reset_iff (s : EpisodeTracker)
    (reward : ℚ) (done : Bool) (info : TrackInfo) :
    (done = true → (s.step reward done info).current_episode_step = 0 ∧
      (s.step reward done info).current_episode_rewards = []) ∧
    (done = false → (s.step reward done info).current_episode_step =
        s.current_episode_step + 1 ∧
      (s.step reward done info).current_episode_step ≠ 0) := by
  constructor <;> intro h <;> subst h <;> simp [EpisodeTracker.step]

/-- Closed instance of `episodeTracker_current_step_reset_iff` at concrete
inputs for both values of `done`. -/
theorem episodeTracker_current_step_reset_iff_witness :
    (EpisodeTracker.reset.step 1 true none).current_episode_step = 0 ∧
    (EpisodeTracker.reset.step 1 false none).current_episode_step =
      EpisodeTracker.reset.current_episode_step + 1 :=
  ⟨((episodeTracker_current_step_reset_iff EpisodeTracker.reset 1 true
      none).1 rfl).1,
   ((episodeTracker_current_step_reset_iff EpisodeTracker.reset 1 false
      none).2 rfl).1⟩

/-- Claim C6: every `step()` call on an `EpisodeTracker` or a
`StepRateTracker` increments `num_steps_since_reset` by exactly 1
(whatever `done` and `info` are), and over any trace between resets the
counter never decreases; `get()` is a pure observation and by type cannot
change the state. -/
theorem num_steps_since_reset_monotone :
    (∀ (s : EpisodeTracker) (reward : ℚ) (done : Bool) (info : TrackInfo),
      (s.step reward done info).num_steps_since_reset =
        s.num_steps_since_reset + 1) ∧
    (∀ (s : StepRateTracker) (reward : ℚ) (done : Bool) (info : TrackInfo),
      (s.step reward done info).num_steps_since_reset =
        s.num_steps_since_reset + 1) ∧
    (∀ (steps extra : List TStep),
      (runSteps steps).num_steps_since_reset ≤
        (runSteps (steps ++ extra)).num_steps_since_reset) ∧
    (∀ (now0 : ℚ) (steps extra : List TStep),
      (runRateSteps now0 steps).num_steps_since_reset ≤
        (runRateSteps now0 (steps ++ extra)).num_steps_since_reset) := by
  refine ⟨?_, ?_, ?_, ?_⟩
  · intro s reward done info
    cases done <;> simp [EpisodeTracker.step]
  · intro s reward done info
    simp [StepRateTracker.step]
  · intro steps extra
    have ha := (runSteps_spec steps).2.2.2.2
    have hb := (runSteps_spec (steps ++ extra)).2.2.2.2
    rw [ha, hb]
    simp
  · intro now0 steps extra
    rw [(runRateSteps_num now0 steps).1,
      (runRateSteps_num now0 (steps ++ extra)).1]
    simp

/-- Claim C7: after `reset()`, `StepRateTracker.get()` reports
`step_rate = num_steps_since_reset / duration` only when at least one step
has been taken; with zero steps the division is not performed and the rate
is `NaN` (modelled as `none`). -/
theorem stepRateTracker_rate_guard (now0 : ℚ) (steps : List TStep)
    (now : ℚ) :
    (steps ≠ [] →
      ((runRateSteps now0 steps).get now).step_rate =
        some (((runRateSteps now0 steps).num_steps_since_reset : ℚ) /
          ((runRateSteps now0 steps).get now).duration)) ∧
    (steps = [] →
      ((runRateSteps now0 steps).get now).step_rate = none) := by
  obtain ⟨hn, hs⟩ := runRateSteps_num now0 steps
  constructor
  · intro hne
    have hpos : 0 < (runRateSteps now0 steps).num_steps_since_reset := by
      rw [hn]
      simpa [List.length_pos] using hne
    unfold StepRateTracker.get
    simp [if_pos hpos]
  · intro h
    subst h
    rfl

/-- Closed instance of `stepRateTracker_rate_guard`: one step over a
duration of 2 time units gives rate 1/2. -/
theorem stepRateTracker_rate_guard_witness :
    ((runRateSteps 0 [⟨1, false, none⟩]).get 2).step_rate = some (1 / 2) := by
  have h := (stepRateTracker_rate_guard 0 [⟨1, false, none⟩] 2).1 (by simp)
  rw [h]
  norm_num [runRateSteps, StepRateTracker.reset, StepRateTracker.step,
    StepRateTracker.get]

/-- Claim C10: in every reachable `EpisodeTracker` state,
`num_steps_since_reset = sum(episode_steps) + current_episode_step`, and
`episode_returns` and `episode_steps` always have the same length. -/
theorem episodeTracker_accounting (steps : List TStep) :
    (runSteps steps).num_steps_since_reset =
        (runSteps steps).episode_steps.sum +
          (runSteps steps).current_episode_step ∧
    (runSteps steps).episode_returns.length =
      (runSteps steps).episode_steps.length := by
  obtain ⟨h1, h2, h3, h4, h5⟩ := runSteps_spec steps
  constructor
  · rw [h5, h2, h4]
    have := episodeAcc_length steps [] []
    simpa using this.symm
  · rw [h1, h2]
    simp

/-! ### CsvWriter (chapter_10/csv_writer.py) -/

/-- One CSV record appended to the file: either the header row or a data
row (cells already projected onto the fieldnames, in order). -/
inductive CsvRow where
  | header (fields : List String)
  | data (cells : List String)
deriving Repr, DecidableEq

/-- The mutable state of a `CsvWriter` (file name omitted: the file content
is threaded separately as the list of appended rows). -/
structure CsvWriter where
  header_written : Bool
  fieldnames : Option (List String)
deriving Repr, DecidableEq

/-- The writer state right after `__init__` has set the fields. -/
def CsvWriter.fresh : CsvWriter :=
  { header_written := false, fieldnames := none }

/-- `CsvWriter.write(values)`: `values` is the dict, as ordered key/value
pairs.  Returns the new writer state, the rows this call appended to the
file, and a success flag (`false` models `csv.DictWriter.writerow` raising
`ValueError` on a key outside the fieldnames; the header, written before
`writerow`, is still appended in that case, and missing keys are filled
with the empty-string rest value). -/
def CsvWriter.write (w : CsvWriter) (values : List (String × String)) :
    CsvWriter × List CsvRow × Bool :=
  let fn := w.fieldnames.getD (values.map Prod.fst)
  let headerRows : List CsvRow :=
    if w.header_written then [] else [CsvRow.header fn]
  let w2 : CsvWriter := { header_written := true, fieldnames := some fn }
  if (values.map Prod.fst).all (fun k => decide (k ∈ fn)) then
    (w2,
     headerRows ++ [CsvRow.data (fn.map fun f => ((List.lookup f values).getD ""))],
     true)
  else
    (w2, headerRows, false)

/-- Performs a sequence of `write` calls; returns the rows appended to the
file and the success flag of each call. -/
def writeAll (w : CsvWriter) :
    List (List (String × String)) → List CsvRow × List Bool
  | [] => ([], [])
  | vs :: rest =>
    let r := w.write vs
    let rr := writeAll r.1 rest
    (r.2.1 ++ rr.1, r.2.2 :: rr.2)

/-- The content one `CsvWriter` instance appends to its file over a
sequence of `write` calls, starting from the post-`__init__` state. -/
def runWrites (vss : List (List (String × String))) :
    List CsvRow × List Bool :=
  writeAll CsvWriter.fresh vss

/-- Whether a row is the header row. -/
def isHeaderRow : CsvRow → Bool
  | CsvRow.header _ => true
  | CsvRow.data _ => false

/-- Number of header rows in a chunk of file content. -/
def countHeaders (rows : List CsvRow) : ℕ :=
  (rows.filter isHeaderRow).length

/-- Number of data rows in a chunk of file content. -/
def countData (rows : List CsvRow) : ℕ :=
  (rows.filter fun r => ! isHeaderRow r).length

lemma countHeaders_append (a b : List CsvRow) :
    countHeaders (a ++ b) = countHeaders a + countHeaders b := by
  simp [countHeaders, List.filter_append]

lemma countData_append (a b : List CsvRow) :
    countData (a ++ b) = countData a + countData b := by
  simp [countData, List.filter_append]

lemma writeAll_cons (w : CsvWriter) (vs : List (String × String))
    (rest : List (List (String × String))) :
    writeAll w (vs :: rest) =
      ((w.write vs).2.1 ++ (writeAll (w.write vs).1 rest).1,
       (w.write vs).2.2 :: (writeAll (w.write vs).1 rest).2) := rfl

/-- Every `write` call leaves `header_written` set. -/
lemma write_header_written (w : CsvWriter) (vs : List (String × String)) :
    ((w.write vs).1).header_written = true := by
  unfold CsvWriter.write
  by_cases hc : ((vs.map Prod.fst).all fun k =>
      decide (k ∈ w.fieldnames.getD (vs.map Prod.fst))) = true
  · rw [if_pos hc]
  · rw [if_neg hc]

/-- Once the header is out, a `write` call appends no further header row,
and appends one data row exactly when it succeeds. -/
lemma write_rows_of_written (w : CsvWriter) (vs : List (String × String))
    (hw : w.header_written = true) :
    countHeaders (w.write vs).2.1 = 0 ∧
    ((w.write vs).2.2 = true → countData (w.write vs).2.1 = 1) ∧
    ((w.write vs).2.2 = false → countData (w.write vs).2.1 = 0) := by
  unfold CsvWriter.write
  by_cases hc : ((vs.map Prod.fst).all fun k =>
      decide (k ∈ w.fieldnames.getD (vs.map Prod.fst))) = true
  · rw [if_pos hc]
    simp [hw, countHeaders, countData, isHeaderRow]
  · rw [if_neg hc]
    simp [hw, countHeaders, countData]

lemma writeAll_of_header_written (l : List (List (String × String))) :
    ∀ (w : CsvWriter), w.header_written = true →
      countHeaders (writeAll w l).1 = 0 ∧
      ((writeAll w l).2.all id = true →
        countData (writeAll w l).1 = l.length) := by
  induction l with
  | nil => intro w _; exact ⟨rfl, fun _ => rfl⟩
  | cons vs rest ih =>
      intro w hw
      obtain ⟨hh, hd1, -⟩ := write_rows_of_written w vs hw
      obtain ⟨rh, rd⟩ := ih (w.write vs).1 (write_header_written w vs)
      rw [writeAll_cons]
      constructor
      · simp only [countHeaders_append, hh, rh]
      · intro hok
        simp only [List.all_cons, Bool.and_eq_true, id] at hok
        simp only [countData_append, hd1 hok.1, rd hok.2, List.length_cons]
        omega

/-- The very first `write` of an instance: the fieldnames become the keys
of the record, the header plus one data row are appended, and the call
succeeds. -/
lemma write_fresh (vs : List (String × String)) :
    (CsvWriter.fresh.write vs).1.fieldnames = some (vs.map Prod.fst) ∧
    (CsvWriter.fresh.write vs).2.1 =
      [CsvRow.header (vs.map Prod.fst),
       CsvRow.data ((vs.map Prod.fst).map fun f => ((List.lookup f vs).getD ""))] ∧
    (CsvWriter.fresh.write vs).2.2 = true := by
  unfold CsvWriter.write CsvWriter.fresh
  have hc : ((vs.map Prod.fst).all fun k =>
      decide (k ∈ (none : Option (List String)).getD (vs.map Prod.fst))) = true := by
    simp [List.all_eq_true]
  simp only [Option.getD_none] at hc ⊢
  rw [if_pos hc]
  exact ⟨rfl, rfl, rfl⟩

/-- Claim C2: across `n ≥ 1` calls to `write` (all of which succeed), a
single `CsvWriter` instance appends exactly one header row — derived from
the keys of the first record — and exactly `n` data rows, one per call. -/
theorem csvWriter_one_header_row_per_call (vs : List (String × String))
    (rest : List (List (String × String)))
    (hok : (runWrites (vs :: rest)).2.all id = true) :
    countHeaders (runWrites (vs :: rest)).1 = 1 ∧
    countData (runWrites (vs :: rest)).1 = (vs :: rest).length ∧
    (runWrites (vs :: rest)).1.head? =
      some (CsvRow.header (vs.map Prod.fst)) := by
  obtain ⟨hfn, hrows, hsucc⟩ := write_fresh vs
  obtain ⟨rh, rd⟩ := writeAll_of_header_written rest
    (CsvWriter.fresh.write vs).1 (write_header_written CsvWriter.fresh vs)
  unfold runWrites at hok ⊢
  rw [writeAll_cons] at hok ⊢
  simp only [List.all_cons, Bool.and_eq_true, id] at hok
  refine ⟨?_, ?_, ?_⟩
  · rw [countHeaders_append, rh, hrows]
    rfl
  · rw [countData_append, rd hok.2, hrows, List.length_cons]
    simp [countData, isHeaderRow]
    omega
  · rw [hrows]
    rfl

/-- Closed instance of `csvWriter_one_header_row_per_call`: two writes with
the same keys produce one header row and two data rows. -/
theorem csvWriter_one_header_row_per_call_witness :
    countHeaders (runWrites [[("a", "1"), ("b", "2")], [("a", "3"), ("b", "4")]]).1 = 1 ∧
    countData (runWrites [[("a", "1"), ("b", "2")], [("a", "3"), ("b", "4")]]).1 = 2 ∧
    (runWrites [[("a", "1"), ("b", "2")], [("a", "3"), ("b", "4")]]).1.head? =
      some (CsvRow.header [ "a", "b"]) := by
  have h := csvWriter_one_header_row_per_call [("a", "1"), ("b", "2")]
    [[("a", "3"), ("b", "4")]] (by decide)
  simpa using h

/-- Python `os.path.dirname` for POSIX paths: the part of the path before
the final slash, with trailing slashes stripped unless the result is all
slashes (this is `posixpath.dirname`: `head = p[:p.rfind('/') + 1]`, then
strip trailing slashes when `head` is nonempty and not all slashes). -/
def dirname (p : String) : String :=
  let cs := p.toList
  let tailLen := (cs.reverse.takeWhile fun c => c ≠ '/').length
  let head := (cs.reverse.drop tailLen).reverse
  let head2 :=
    if head ≠ [] ∧ ¬ head.all (fun c => c = '/') then
      (head.reverse.dropWhile fun c => c = '/').reverse
    else head
  String.mk head2

/-- Python `os.path.exists`, over a filesystem modelled as the list of
existing paths; `os.path.exists('')` is always `False`. -/
def pyExists (fs : List String) (p : String) : Bool :=
  p ≠ "" && fs.contains p

/-- Python `os.makedirs(p)` (no `exist_ok`): raises `FileNotFoundError`
on the empty path, otherwise creates the directory (intermediate
directories collapsed into the single created entry). -/
def makedirs (fs : List String) (p : String) : Except String (List String) :=
  if p = "" then Except.error "FileNotFoundError"
  else Except.ok (p :: fs)

/-- `CsvWriter.__init__(fname)`: computes `dirname(fname)`, creates it when
it does not exist, and returns the fresh writer state; exceptions from
`os.makedirs` propagate. -/
def CsvWriter.initFS (fname : String) (fs : List String) :
    Except String (CsvWriter × List String) :=
  let d := dirname fname
  if pyExists fs d then Except.ok (CsvWriter.fresh, fs)
  else (makedirs fs d).map fun fs2 => (CsvWriter.fresh, fs2)

/-- Claim C9: constructing a `CsvWriter` on a file name with empty
directory component raises (from `os.makedirs('')`) before any write; with
a non-empty directory component construction succeeds and the directory
exists afterwards (created if absent). -/
theorem csvWriter_init_requires_directory (fname : String)
    (fs : List String) :
    (dirname fname = "" →
      CsvWriter.initFS fname fs = Except.error "FileNotFoundError") ∧
    (dirname fname ≠ "" →
      ∃ fs2, CsvWriter.initFS fname fs = Except.ok (CsvWriter.fresh, fs2) ∧
        pyExists fs2 (dirname fname) = true) := by
  constructor
  · intro h
    unfold CsvWriter.initFS
    rw [h]
    have hex : pyExists fs "" = false := by simp [pyExists]
    simp only [hex, Bool.false_eq_true, if_false, makedirs, if_pos rfl]
    rfl
  · intro h
    unfold CsvWriter.initFS
    by_cases hex : pyExists fs (dirname fname) = true
    · rw [if_pos hex]
      exact ⟨fs, rfl, hex⟩
    · rw [if_neg (by simpa using hex)]
      refine ⟨dirname fname :: fs, ?_, ?_⟩
      · simp only [makedirs, if_neg h]
        rfl
      · simp [pyExists, h]

/-- Closed instance of `csvWriter_init_requires_directory`: a bare file
name such as `results.csv` cannot be used, while `logs/results.csv`
succeeds and creates `logs`. -/
theorem csvWriter_init_requires_directory_witness :
    CsvWriter.initFS "results.csv" [] =
      Except.error "FileNotFoundError" ∧
    ∃ fs2, CsvWriter.initFS "logs/results.csv" [] =
      Except.ok (CsvWriter.fresh, fs2) ∧
      pyExists fs2 (dirname "logs/results.csv") = true :=
  ⟨(csvWriter_init_requires_directory "results.csv" []).1 (by decide),
   (csvWriter_init_requires_directory "logs/results.csv" []).2 (by decide)⟩

/-! ### CoordsConvertor (chapter_14/envs/coords.py)

Minigo coordinates are `Option (ℤ × ℤ)` (`none` is the pass move, the
components are Python ints).  SGF and GTP coordinates are the character
lists of the Python strings.  A result of `none` in an outer `Option`
models a Python exception (`IndexError` from string indexing,
`ValueError` from `str.index` or `int`). -/

/-- `_SGF_COLUMNS`. -/
def SGF_COLUMNS : List Char :=
  "abcdefghijklmnopqrstuvwxyzABCDEFGHIJKLMNOPQRSTUVWXYZ".toList

/-- `_GTP_COLUMNS` (the letter I is skipped). -/
def GTP_COLUMNS : List Char :=
  "ABCDEFGHJKLMNOPQRSTUVWXYZ".toList

/-- Python string indexing `s[i]`: a negative index counts from the end,
an out-of-range index raises `IndexError` (modelled as `none`). -/
def pyGet (l : List Char) (i : ℤ) : Option Char :=
  let j : ℤ := if i < 0 then (l.length : ℤ) + i else i
  if 0 ≤ j then l.get? j.toNat else none

/-- Python `str.index(c)`: position of the first occurrence of `c`, with
`none` modelling the `ValueError` raised when `c` is absent. -/
def charIndex : List Char → Char → Option ℕ
  | [], _ => none
  | a :: as, c => if a = c then some 0 else (charIndex as c).map (· + 1)

/-- Decimal digit character for a value below 10. -/
def digitChar (d : ℕ) : Char := Char.ofNat (48 + d)

/-- Python `str` of a natural number: decimal digits, most significant
first. -/
def pyStrNat (n : ℕ) : List Char :=
  if n = 0 then ['0'] else ((Nat.digits 10 n).reverse).map digitChar

/-- Python `str` of an int (`'{}'.format` on an int). -/
def pyStrInt (z : ℤ) : List Char :=
  if z < 0 then '-' :: pyStrNat z.natAbs else pyStrNat z.toNat

/-- Numeric value of a decimal digit character, `none` otherwise. -/
def digitVal (c : Char) : Option ℕ :=
  if '0' ≤ c ∧ c ≤ '9' then some (c.toNat - 48) else none

/-- One step of decimal parsing: failure propagates, a non-digit fails. -/
def parseStep (acc : Option ℕ) (c : Char) : Option ℕ := do
  let a ← acc
  let d ← digitVal c
  some (10 * a + d)

/-- Python `int(s)` on an all-digit string: `none` models the
`ValueError` on the empty string or a non-digit character. -/
def parsePyNat (l : List Char) : Option ℕ :=
  if l = [] then none
  else l.foldl parseStep (some 0)

/-- Python `int(s)` including a possible leading minus sign. -/
def parsePyInt (l : List Char) : Option ℤ :=
  if l.head? = some '-' then (parsePyNat l.tail).map fun n => -(n : ℤ)
  else (parsePyNat l).map fun n => (n : ℤ)

/-- The convertor object: a board size. -/
structure CoordsConvertor where
  board_size : ℕ
deriving Repr, DecidableEq

/-- `from_flat`: Python `divmod` is floored division, `Int.fdiv`/`Int.fmod`. -/
def CoordsConvertor.from_flat (cc : CoordsConvertor) (flat : ℤ) :
    Option (ℤ × ℤ) :=
  if flat = (cc.board_size : ℤ) * cc.board_size then none
  else some (flat.fdiv cc.board_size, flat.fmod cc.board_size)

/-- `to_flat`. -/
def CoordsConvertor.to_flat (cc : CoordsConvertor)
    (coord : Option (ℤ × ℤ)) : ℤ :=
  match coord with
  | none => (cc.board_size : ℤ) * cc.board_size
  | some (r, c) => (cc.board_size : ℤ) * r + c

/-- `from_sgf` (a `None` argument is identified with the empty string,
which the source sends to the same branch). -/
def CoordsConvertor.from_sgf (cc : CoordsConvertor) (sgfc : List Char) :
    Option (Option (ℤ × ℤ)) :=
  if sgfc = [] ∨ (cc.board_size ≤ 19 ∧ sgfc = ['t', 't']) then some none
  else do
    let c1 ← pyGet sgfc 1
    let c0 ← pyGet sgfc 0
    let r ← charIndex SGF_COLUMNS c1
    let c ← charIndex SGF_COLUMNS c0
    some (some ((r : ℤ), (c : ℤ)))

/-- `to_sgf`: column letter then row letter. -/
def CoordsConvertor.to_sgf (_cc : CoordsConvertor)
    (coord : Option (ℤ × ℤ)) : Option (List Char) :=
  match coord with
  | none => some []
  | some (r, c) => do
    let a ← pyGet SGF_COLUMNS c
    let b ← pyGet SGF_COLUMNS r
    some [a, b]

/-- `from_gtp`: uppercases, handles `pass`, then column letter and the
row number counted from the bottom. -/
def CoordsConvertor.from_gtp (cc : CoordsConvertor) (gtpc : List Char) :
    Option (Option (ℤ × ℤ)) :=
  let gu := gtpc.map Char.toUpper
  if gu = ['P', 'A', 'S', 'S'] then some none
  else do
    let c0 ← pyGet gu 0
    let col ← charIndex GTP_COLUMNS c0
    let row ← parsePyInt (gu.drop 1)
    some (some ((cc.board_size : ℤ) - row, (col : ℤ)))

/-- `to_gtp`: column letter (skipping I) followed by
`board_size - row`. -/
def CoordsConvertor.to_gtp (cc : CoordsConvertor)
    (coord : Option (ℤ × ℤ)) : Option (List Char) :=
  match coord with
  | none => some ['p', 'a', 's', 's']
  | some (y, x) => do
    let ch ← pyGet GTP_COLUMNS x
    some (ch :: pyStrInt ((cc.board_size : ℤ) - y))

lemma SGF_nodup : SGF_COLUMNS.Nodup := by decide

lemma GTP_nodup : GTP_COLUMNS.Nodup := by decide

lemma letter_i_not_mem_gtp : 'I' ∉ GTP_COLUMNS := by decide

lemma gtp_columns_upper : ∀ c ∈ GTP_COLUMNS, c.toUpper = c := by decide

lemma pyGet_nonneg (l : List Char) (i : ℤ) (hi : 0 ≤ i) :
    pyGet l i = l.get? i.toNat := by
  simp only [pyGet]
  rw [if_neg (show ¬ i < 0 by omega), if_pos hi]

/-- On a duplicate-free list, `charIndex` inverts positional lookup. -/
lemma charIndex_get (l : List Char) (hl : l.Nodup) :
    ∀ (i : ℕ) (c : Char), l.get? i = some c → charIndex l c = some i := by
  induction l with
  | nil => intro i c h; simp at h
  | cons a as ih =>
      intro i c h
      cases i with
      | zero =>
          simp only [List.get?] at h
          injection h with h
          subst h
          simp [charIndex]
      | succ i =>
          simp only [List.get?] at h
          have hne : a ≠ c := by
            intro he
            subst he
            exact (List.nodup_cons.mp hl).1 (List.get?_mem h)
          simp [charIndex, hne, ih (List.nodup_cons.mp hl).2 i c h]

lemma digitChar_facts (d : ℕ) (hd : d < 10) :
    digitVal (digitChar d) = some d ∧
    ('0' ≤ digitChar d ∧ digitChar d ≤ '9') ∧
    (digitChar d).toUpper = digitChar d := by
  interval_cases d <;> refine ⟨by decide, by decide, by decide⟩

lemma pyStrNat_digits (n : ℕ) : ∀ c ∈ pyStrNat n, '0' ≤ c ∧ c ≤ '9' := by
  intro c hc
  unfold pyStrNat at hc
  by_cases h : n = 0
  · rw [if_pos h] at hc
    simp at hc
    subst hc
    decide
  · rw [if_neg h] at hc
    simp only [List.mem_map, List.mem_reverse] at hc
    obtain ⟨d, hd, rfl⟩ := hc
    exact (digitChar_facts d (Nat.digits_lt_base (by norm_num) hd)).2.1

lemma pyStrNat_ne_nil (n : ℕ) : pyStrNat n ≠ [] := by
  unfold pyStrNat
  by_cases h : n = 0
  · rw [if_pos h]; simp
  · rw [if_neg h]
    simp [Nat.digits_ne_nil_iff_ne_zero, h]

lemma pyStrNat_toUpper (n : ℕ) :
    (pyStrNat n).map Char.toUpper = pyStrNat n := by
  by_cases h : n = 0
  · subst h; decide
  · unfold pyStrNat
    rw [if_neg h, List.map_map]
    refine List.map_congr_left ?_
    intro d hd
    exact (digitChar_facts d
      (Nat.digits_lt_base (by norm_num) (List.mem_reverse.mp hd))).2.2

lemma foldl_digits_eq (L : List ℕ) :
    ∀ a : ℕ, L.reverse.foldl (fun x d => 10 * x + d) a =
      a * 10 ^ L.length + Nat.ofDigits 10 L := by
  induction L with
  | nil => intro a; simp
  | cons d L ih =>
      intro a
      simp only [List.reverse_cons, List.foldl_append, List.foldl_cons,
        List.foldl_nil, ih, Nat.ofDigits_cons, List.length_cons]
      ring

lemma parseStep_fold (ds : List ℕ) :
    ∀ a : ℕ, (∀ d ∈ ds, d < 10) →
      (ds.map digitChar).foldl parseStep (some a) =
        some (ds.foldl (fun x d => 10 * x + d) a) := by
  induction ds with
  | nil => intro a _; rfl
  | cons d ds ih =>
      intro a hall
      have hd : d < 10 := hall d (by simp)
      simp only [List.map_cons, List.foldl_cons]
      have hstep : parseStep (some a) (digitChar d) = some (10 * a + d) := by
        simp [parseStep, (digitChar_facts d hd).1]
      rw [hstep]
      exact ih _ (fun x hx => hall x (by simp [hx]))

lemma parsePyNat_pyStrNat (n : ℕ) : parsePyNat (pyStrNat n) = some n := by
  by_cases h : n = 0
  · subst h; decide
  · unfold parsePyNat
    rw [if_neg (pyStrNat_ne_nil n)]
    unfold pyStrNat
    rw [if_neg h]
    rw [parseStep_fold _ 0
      (fun d hd => Nat.digits_lt_base (by norm_num) (List.mem_reverse.mp hd))]
    rw [foldl_digits_eq]
    simp [Nat.ofDigits_digits]

lemma parsePyInt_pyStrInt (z : ℤ) (hz : 0 ≤ z) :
    parsePyInt (pyStrInt z) = some z := by
  unfold pyStrInt
  rw [if_neg (by omega)]
  unfold parsePyInt
  have hhead : ¬ (pyStrNat z.toNat).head? = some '-' := by
    intro hh
    have hmem : '-' ∈ pyStrNat z.toNat :=
      List.mem_of_mem_head? (by simp [hh, Option.mem_def])
    have := pyStrNat_digits z.toNat _ hmem
    revert this
    decide
  rw [if_neg hhead, parsePyNat_pyStrNat]
  simp [Int.toNat_of_nonneg hz]

/-- Claim C3: for `0 ≤ x ≤ N²`, `to_flat (from_flat x) = x`;
`from_flat x = none` exactly when `x = N²` (the pass sentinel); and every
in-range Minigo pair flattens into `0 .. N² - 1`. -/
theorem flat_coord_round_trip (N : ℕ) (x : ℤ) (_hx0 : 0 ≤ x)
    (_hxN : x ≤ (N : ℤ) * N) :
    (CoordsConvertor.mk N).to_flat ((CoordsConvertor.mk N).from_flat x) = x ∧
    ((CoordsConvertor.mk N).from_flat x = none ↔ x = (N : ℤ) * N) ∧
    (∀ r c : ℤ, 0 ≤ r → r < N → 0 ≤ c → c < N →
      0 ≤ (CoordsConvertor.mk N).to_flat (some (r, c)) ∧
      (CoordsConvertor.mk N).to_flat (some (r, c)) < (N : ℤ) * N) := by
  refine ⟨?_, ?_, ?_⟩
  · unfold CoordsConvertor.from_flat CoordsConvertor.to_flat
    by_cases h : x = (N : ℤ) * N
    · rw [if_pos h]
      exact h.symm
    · rw [if_neg h]
      have hdm := Int.fmod_add_fdiv x (N : ℤ)
      simp only []
      linarith [hdm]
  · unfold CoordsConvertor.from_flat
    by_cases h : x = (N : ℤ) * N
    · rw [if_pos h]
      simp [h]
    · rw [if_neg h]
      simp [h]
  · intro r c hr0 hr hc0 hc
    constructor
    · show (0 : ℤ) ≤ (N : ℤ) * r + c
      exact add_nonneg (mul_nonneg (by positivity) hr0) hc0
    · show (N : ℤ) * r + c < (N : ℤ) * N
      nlinarith [mul_le_mul_of_nonneg_left (show r ≤ (N : ℤ) - 1 by omega)
        (show (0 : ℤ) ≤ (N : ℤ) by positivity)]

/-- Closed instance of `flat_coord_round_trip` on a 3×3 board: flat 4
round-trips, flat 9 decodes to pass, and the pair (1, 2) flattens into
range. -/
theorem flat_coord_round_trip_witness :
    (CoordsConvertor.mk 3).to_flat ((CoordsConvertor.mk 3).from_flat 4) = 4 ∧
    (CoordsConvertor.mk 3).from_flat 9 = none ∧
    (0 ≤ (CoordsConvertor.mk 3).to_flat (some (1, 2)) ∧
      (CoordsConvertor.mk 3).to_flat (some (1, 2)) < (3 : ℤ) * 3) := by
  refine ⟨(flat_coord_round_trip 3 4 (by norm_num) (by norm_num)).1, ?_, ?_⟩
  · exact ((flat_coord_round_trip 3 9 (by norm_num) (by norm_num)).2.1).mpr
      (by norm_num)
  · have h := (flat_coord_round_trip 3 0 (by norm_num) (by norm_num)).2.2
      1 2 (by norm_num) (by norm_num) (by norm_num) (by norm_num)
    simpa using h

/-- Claim C8: for any coordinate `(r, c)` with `0 ≤ c < 25`, `to_gtp`
produces a column letter drawn from `_GTP_COLUMNS` (never the letter I)
followed by the decimal representation of `board_size - r`. -/
theorem to_gtp_skips_letter_i (N : ℕ) (r c : ℤ) (hc0 : 0 ≤ c)
    (hc : c < 25) :
    ∃ ch, pyGet GTP_COLUMNS c = some ch ∧ ch ∈ GTP_COLUMNS ∧ ch ≠ 'I' ∧
      (CoordsConvertor.mk N).to_gtp (some (r, c)) =
        some (ch :: pyStrInt ((N : ℤ) - r)) := by
  have hlen : c.toNat < GTP_COLUMNS.length := by
    have h25 : GTP_COLUMNS.length = 25 := rfl
    omega
  have hget : pyGet GTP_COLUMNS c = some (GTP_COLUMNS.get ⟨c.toNat, hlen⟩) := by
    rw [pyGet_nonneg _ _ hc0, List.get?_eq_get hlen]
  refine ⟨_, hget, List.get_mem _ _ _, ?_, ?_⟩
  · intro he
    exact letter_i_not_mem_gtp (he ▸ List.get_mem _ _ _)
  · have hred : (CoordsConvertor.mk N).to_gtp (some (r, c)) =
        (pyGet GTP_COLUMNS c).bind fun ch =>
          some (ch :: pyStrInt ((N : ℤ) - r)) := rfl
    rw [hred, hget]
    rfl

/-- Closed instance of `to_gtp_skips_letter_i`: column 8 on a 19×19 board
is the letter J (I is skipped). -/
theorem to_gtp_skips_letter_i_witness :
    ∃ ch, pyGet GTP_COLUMNS 8 = some ch ∧ ch ∈ GTP_COLUMNS ∧ ch ≠ 'I' ∧
      (CoordsConvertor.mk 19).to_gtp (some (0, 8)) =
        some (ch :: pyStrInt ((19 : ℕ) - (0 : ℤ))) :=
  to_gtp_skips_letter_i 19 0 8 (by norm_num) (by norm_num)

/-- Counterexample to claim C4 as frozen: on a 26×26 board the in-range
coordinate (0, 25) makes `to_gtp` raise `IndexError` (`_GTP_COLUMNS` has
only 25 entries), so the GTP round trip cannot return the coordinate. -/
theorem gtp_round_trip_fails_beyond_25 :
    ¬ ((CoordsConvertor.mk 26).to_gtp (some (0, 25))).bind
        (CoordsConvertor.mk 26).from_gtp = some (some (0, 25)) := by
  decide

/-- Claim C4 (amended: the board size is at most 25, the capacity of
`_GTP_COLUMNS`; beyond that `to_gtp` raises): `from_sgf ∘ to_sgf` and
`from_gtp ∘ to_gtp` are the identity on pass and on every in-range
coordinate, and the pass sentinels encode/decode as `''` and `'pass'`. -/
theorem sgf_gtp_round_trips (N : ℕ) (hN : N ≤ 25) (coord : Option (ℤ × ℤ))
    (hcoord : coord = none ∨ ∃ r c : ℤ, coord = some (r, c) ∧
      0 ≤ r ∧ r < N ∧ 0 ≤ c ∧ c < N) :
    ((CoordsConvertor.mk N).to_sgf coord).bind
        (CoordsConvertor.mk N).from_sgf = some coord ∧
    ((CoordsConvertor.mk N).to_gtp coord).bind
        (CoordsConvertor.mk N).from_gtp = some coord ∧
    (CoordsConvertor.mk N).to_sgf none = some [] ∧
    (CoordsConvertor.mk N).from_sgf [] = some none ∧
    (CoordsConvertor.mk N).to_gtp none = some ['p', 'a', 's', 's'] ∧
    (CoordsConvertor.mk N).from_gtp ['p', 'a', 's', 's'] = some none := by
  have hsgf_pass : (CoordsConvertor.mk N).from_sgf [] = some none := by
    unfold CoordsConvertor.from_sgf
    rw [if_pos (Or.inl rfl)]
  have hgtp_pass :
      (CoordsConvertor.mk N).from_gtp ['p', 'a', 's', 's'] = some none := by
    unfold CoordsConvertor.from_gtp
    rw [if_pos (by decide)]
  refine ⟨?_, ?_, rfl, hsgf_pass, rfl, hgtp_pass⟩
  · rcases hcoord with rfl | ⟨r, c, rfl, hr0, hr, hc0, hc⟩
    · show ((some ([] : List Char)).bind (CoordsConvertor.mk N).from_sgf) =
        some none
      rw [Option.some_bind]
      exact hsgf_pass
    · have hc52 : c.toNat < SGF_COLUMNS.length := by
        have h52 : SGF_COLUMNS.length = 52 := rfl
        omega
      have hr52 : r.toNat < SGF_COLUMNS.length := by
        have h52 : SGF_COLUMNS.length = 52 := rfl
        omega
      have hga : pyGet SGF_COLUMNS c =
          some (SGF_COLUMNS.get ⟨c.toNat, hc52⟩) := by
        rw [pyGet_nonneg _ _ hc0, List.get?_eq_get hc52]
      have hgb : pyGet SGF_COLUMNS r =
          some (SGF_COLUMNS.get ⟨r.toNat, hr52⟩) := by
        rw [pyGet_nonneg _ _ hr0, List.get?_eq_get hr52]
      have hia : charIndex SGF_COLUMNS (SGF_COLUMNS.get ⟨c.toNat, hc52⟩) =
          some c.toNat :=
        charIndex_get _ SGF_nodup _ _ (List.get?_eq_get hc52)
      have hib : charIndex SGF_COLUMNS (SGF_COLUMNS.get ⟨r.toNat, hr52⟩) =
          some r.toNat :=
        charIndex_get _ SGF_nodup _ _ (List.get?_eq_get hr52)
      have hts : (CoordsConvertor.mk N).to_sgf (some (r, c)) =
          some [SGF_COLUMNS.get ⟨c.toNat, hc52⟩,
            SGF_COLUMNS.get ⟨r.toNat, hr52⟩] := by
        have hred : (CoordsConvertor.mk N).to_sgf (some (r, c)) =
            (pyGet SGF_COLUMNS c).bind fun a =>
              (pyGet SGF_COLUMNS r).bind fun b => some [a, b] := rfl
        rw [hred, hga, Option.some_bind, hgb, Option.some_bind]
      have hcond : ¬ ([SGF_COLUMNS.get ⟨c.toNat, hc52⟩,
          SGF_COLUMNS.get ⟨r.toNat, hr52⟩] = ([] : List Char) ∨
          (N ≤ 19 ∧ [SGF_COLUMNS.get ⟨c.toNat, hc52⟩,
            SGF_COLUMNS.get ⟨r.toNat, hr52⟩] = ['t', 't'])) := by
        rintro (h | ⟨h19, htt⟩)
        · simp at h
        · have ha : SGF_COLUMNS.get ⟨c.toNat, hc52⟩ = 't' := by
            injection htt
          have h19idx : charIndex SGF_COLUMNS 't' = some 19 := by decide
          rw [ha, h19idx] at hia
          injection hia with hia
          omega
      have hfs : (CoordsConvertor.mk N).from_sgf
          [SGF_COLUMNS.get ⟨c.toNat, hc52⟩, SGF_COLUMNS.get ⟨r.toNat, hr52⟩] =
          some (some (r, c)) := by
        have hred : (CoordsConvertor.mk N).from_sgf
            [SGF_COLUMNS.get ⟨c.toNat, hc52⟩,
              SGF_COLUMNS.get ⟨r.toNat, hr52⟩] =
            if [SGF_COLUMNS.get ⟨c.toNat, hc52⟩,
                SGF_COLUMNS.get ⟨r.toNat, hr52⟩] = ([] : List Char) ∨
                (N ≤ 19 ∧ [SGF_COLUMNS.get ⟨c.toNat, hc52⟩,
                  SGF_COLUMNS.get ⟨r.toNat, hr52⟩] = ['t', 't']) then
              some none
            else
              (pyGet [SGF_COLUMNS.get ⟨c.toNat, hc52⟩,
                  SGF_COLUMNS.get ⟨r.toNat, hr52⟩] 1).bind fun c1 =>
                (pyGet [SGF_COLUMNS.get ⟨c.toNat, hc52⟩,
                    SGF_COLUMNS.get ⟨r.toNat, hr52⟩] 0).bind fun c0 =>
                  (charIndex SGF_COLUMNS c1).bind fun rr =>
                    (charIndex SGF_COLUMNS c0).bind fun cc =>
                      some (some ((rr : ℤ), (cc : ℤ))) := rfl
        rw [hred, if_neg hcond]
        have h1 : pyGet [SGF_COLUMNS.get ⟨c.toNat, hc52⟩,
            SGF_COLUMNS.get ⟨r.toNat, hr52⟩] 1 =
            some (SGF_COLUMNS.get ⟨r.toNat, hr52⟩) := rfl
        have h0 : pyGet [SGF_COLUMNS.get ⟨c.toNat, hc52⟩,
            SGF_COLUMNS.get ⟨r.toNat, hr52⟩] 0 =
            some (SGF_COLUMNS.get ⟨c.toNat, hc52⟩) := rfl
        rw [h1, Option.some_bind, h0, Option.some_bind, hib,
          Option.some_bind, hia, Option.some_bind]
        simp [Int.toNat_of_nonneg hr0, Int.toNat_of_nonneg hc0]
      rw [hts, Option.some_bind, hfs]
  · rcases hcoord with rfl | ⟨r, c, rfl, hr0, hr, hc0, hc⟩
    · show ((some ['p', 'a', 's', 's']).bind
        (CoordsConvertor.mk N).from_gtp) = some none
      rw [Option.some_bind]
      exact hgtp_pass
    · have hlen : c.toNat < GTP_COLUMNS.length := by
        have h25 : GTP_COLUMNS.length = 25 := rfl
        omega
      have hgch : pyGet GTP_COLUMNS c =
          some (GTP_COLUMNS.get ⟨c.toNat, hlen⟩) := by
        rw [pyGet_nonneg _ _ hc0, List.get?_eq_get hlen]
      have hpos : (0 : ℤ) ≤ (N : ℤ) - r := by omega
      have hstr : pyStrInt ((N : ℤ) - r) =
          pyStrNat ((N : ℤ) - r).toNat := by
        unfold pyStrInt
        rw [if_neg (by omega)]
      have htg : (CoordsConvertor.mk N).to_gtp (some (r, c)) =
          some (GTP_COLUMNS.get ⟨c.toNat, hlen⟩ ::
            pyStrNat ((N : ℤ) - r).toNat) := by
        have hred : (CoordsConvertor.mk N).to_gtp (some (r, c)) =
            (pyGet GTP_COLUMNS c).bind fun ch =>
              some (ch :: pyStrInt ((N : ℤ) - r)) := rfl
        rw [hred, hgch, Option.some_bind, hstr]
      have hchu : (GTP_COLUMNS.get ⟨c.toNat, hlen⟩).toUpper =
          GTP_COLUMNS.get ⟨c.toNat, hlen⟩ :=
        gtp_columns_upper _ (List.get_mem _ _ _)
      have hgu : ((GTP_COLUMNS.get ⟨c.toNat, hlen⟩ ::
          pyStrNat ((N : ℤ) - r).toNat).map Char.toUpper) =
          GTP_COLUMNS.get ⟨c.toNat, hlen⟩ ::
            pyStrNat ((N : ℤ) - r).toNat := by
        rw [List.map_cons, hchu, pyStrNat_toUpper]
      have hne : ¬ (GTP_COLUMNS.get ⟨c.toNat, hlen⟩ ::
          pyStrNat ((N : ℤ) - r).toNat) = ['P', 'A', 'S', 'S'] := by
        intro he
        have hds : pyStrNat ((N : ℤ) - r).toNat = ['A', 'S', 'S'] := by
          injection he
        have hA : 'A' ∈ pyStrNat ((N : ℤ) - r).toNat := by
          rw [hds]
          simp
        have := pyStrNat_digits _ _ hA
        revert this
        decide
      have hidx : charIndex GTP_COLUMNS (GTP_COLUMNS.get ⟨c.toNat, hlen⟩) =
          some c.toNat :=
        charIndex_get _ GTP_nodup _ _ (List.get?_eq_get hlen)
      have hparse : parsePyInt (pyStrNat ((N : ℤ) - r).toNat) =
          some ((N : ℤ) - r) := by
        rw [← hstr]
        exact parsePyInt_pyStrInt _ hpos
      have hfg : (CoordsConvertor.mk N).from_gtp
          (GTP_COLUMNS.get ⟨c.toNat, hlen⟩ ::
            pyStrNat ((N : ℤ) - r).toNat) = some (some (r, c)) := by
        have hred : (CoordsConvertor.mk N).from_gtp
            (GTP_COLUMNS.get ⟨c.toNat, hlen⟩ ::
              pyStrNat ((N : ℤ) - r).toNat) =
            if ((GTP_COLUMNS.get ⟨c.toNat, hlen⟩ ::
                pyStrNat ((N : ℤ) - r).toNat).map Char.toUpper) =
                ['P', 'A', 'S', 'S'] then some none
            else
              (pyGet ((GTP_COLUMNS.get ⟨c.toNat, hlen⟩ ::
                  pyStrNat ((N : ℤ) - r).toNat).map Char.toUpper) 0).bind
                fun c0 => (charIndex GTP_COLUMNS c0).bind fun col =>
                  (parsePyInt (((GTP_COLUMNS.get ⟨c.toNat, hlen⟩ ::
                    pyStrNat ((N : ℤ) - r).toNat).map Char.toUpper).drop
                      1)).bind fun row =>
                    some (some ((N : ℤ) - row, (col : ℤ))) := rfl
        rw [hred, hgu, if_neg hne]
        have h0 : pyGet (GTP_COLUMNS.get ⟨c.toNat, hlen⟩ ::
            pyStrNat ((N : ℤ) - r).toNat) 0 =
            some (GTP_COLUMNS.get ⟨c.toNat, hlen⟩) := rfl
        have hdrop : (GTP_COLUMNS.get ⟨c.toNat, hlen⟩ ::
            pyStrNat ((N : ℤ) - r).toNat).drop 1 =
            pyStrNat ((N : ℤ) - r).toNat := rfl
        rw [h0, Option.some_bind, hidx, Option.some_bind, hdrop, hparse,
          Option.some_bind]
        have hr2 : (N : ℤ) - ((N : ℤ) - r) = r := by ring
        rw [hr2, Int.toNat_of_nonneg hc0]
      rw [htg, Option.some_bind, hfg]

/-- Closed instance of `sgf_gtp_round_trips` at board size 19 and the
coordinate (3, 9). -/
theorem sgf_gtp_round_trips_witness :
    ((CoordsConvertor.mk 19).to_sgf (some (3, 9))).bind
        (CoordsConvertor.mk 19).from_sgf = some (some (3, 9)) ∧
    ((CoordsConvertor.mk 19).to_gtp (some (3, 9))).bind
        (CoordsConvertor.mk 19).from_gtp = some (some (3, 9)) := by
  have h := sgf_gtp_round_trips 19 (by norm_num) (some (3, 9))
    (Or.inr ⟨3, 9, rfl, by norm_num, by norm_num, by norm_num, by norm_num⟩)
  exact ⟨h.1, h.2.1⟩

end ArtOfRL
